import Mathlib

/-!
Verification of the KubeVirt Ansible collection's inventory projection
algorithm (`plugins/inventory/kubevirt.py`) and VM manifest renderer
(`plugins/modules/kubevirt_vm.py`), as a shallow embedding in Lean 4.

The inventory projector `get_vmis_for_namespace` never reads the inventory
object: it only issues `add_group` / `add_child` / `add_host` /
`set_variable` calls whose arguments are computed purely from its inputs.
We therefore embed it as a pure function producing a list of `Mutation`s,
together with an interpreter `applyMuts` over an explicit inventory state.
-/

namespace Kubevirt

/-- A JSON-like value as handled by the Kubernetes dynamic client:
scalars, sequences, plain mappings (`dictV`), and the client's
`ResourceField` wrapper type (`field`) whose members are key/value pairs.
`field` corresponds to the wrapper the decoder removes; `dictV` to the
plain Python dict the decoder produces. -/
inductive ApiValue where
  | null
  | str (s : String)
  | int (n : Int)
  | bool (b : Bool)
  | field (members : List (String × ApiValue))
  | list (items : List ApiValue)
  | dictV (members : List (String × ApiValue))
deriving Repr

/-- Lift an optional string to the value stored by `set_variable`
(`None` becomes `null`). -/
def optStr : Option String → ApiValue
  | none => .null
  | some s => .str s

mutual
/-- Embeds `InventoryModule.__resource_field_to_dict` (kubevirt.py lines
519-534): a `ResourceField` decodes to a dict of its members, each
recursively decoded; a list/tuple decodes elementwise; anything else
passes through unchanged. -/
def resource_field_to_dict : ApiValue → ApiValue
  | .field ms => .dictV (decodePairs ms)
  | .list xs => .list (decodeItems xs)
  | v => v

/-- Recursive decoding of the member list of a `ResourceField`. -/
def decodePairs : List (String × ApiValue) → List (String × ApiValue)
  | [] => []
  | (k, v) :: rest => (k, resource_field_to_dict v) :: decodePairs rest

/-- Recursive decoding of the elements of a sequence. -/
def decodeItems : List ApiValue → List ApiValue
  | [] => []
  | v :: rest => resource_field_to_dict v :: decodeItems rest
end

/-! ## Data model of the inventory plugin -/

/-- One entry of `vmi.status.interfaces`, restricted to the two members the
projector reads (`name` and `ipAddress`); a missing member is `none`. -/
structure Interface where
  name : Option String
  ipAddress : Option String
deriving DecidableEq, Repr

/-- `vmi.metadata` as read by `get_vmis_for_namespace`. `labels` and
`annotations` are the key/value pairs of the corresponding mappings in
iteration order (`none` when the field is missing from the API object). -/
structure VmiMetadata where
  name : String
  «namespace» : String
  uid : String
  labels : Option (List (String × String))
  annotations : Option (List (String × String))
  clusterName : Option String
  resourceVersion : Option String

/-- `vmi.status` as read by `get_vmis_for_namespace`; structured members
that the projector only decodes are kept as opaque `ApiValue`s. -/
structure VmiStatus where
  interfaces : Option (List Interface)
  activePods : Option ApiValue
  conditions : Option (List ApiValue)
  guestOSInfo : Option ApiValue
  launcherContainerImageVersion : Option String
  migrationMethod : Option String
  migrationTransport : Option String
  nodeName : Option String
  phase : Option String
  phaseTransitionTimestamps : Option (List ApiValue)
  qosClass : Option String
  virtualMachineRevisionName : Option String
  volumeStatus : Option (List ApiValue)

/-- One VirtualMachineInstance record; `status` is `none` when the API
object has no status field. -/
structure Vmi where
  metadata : VmiMetadata
  status : Option VmiStatus

/-- Embeds the dataclass `GetVmiOptions` after `__post_init__` has run:
`api_version` and `host_format` can no longer be `None`. -/
structure GetVmiOptions where
  api_version : String
  label_selector : Option String
  network_name : Option String
  kube_secondary_dns : Bool
  base_domain : Option String
  host_format : String

/-- Embeds construction of `GetVmiOptions` (kubevirt.py lines 175-192):
the dataclass `__init__` immediately followed by `__post_init__`, which
replaces a `None` `api_version` / `host_format` by the defaults. -/
def mkGetVmiOptions (api_version label_selector network_name : Option String)
    (kube_secondary_dns : Bool) (base_domain host_format : Option String) :
    GetVmiOptions where
  api_version := match api_version with
    | none => "kubevirt.io/v1"
    | some s => s
  label_selector := label_selector
  network_name := network_name
  kube_secondary_dns := kube_secondary_dns
  base_domain := base_domain
  host_format := match host_format with
    | none => "{namespace}-{name}"
    | some s => s

/-! ## Host name formatting

`opts.host_format.format(namespace=..., name=..., uid=...)` is embedded by
a small interpreter of Python `str.format` over the subset actually usable
here: literal text, the escapes `{{` / `}}`, and the replacement fields
`{namespace}`, `{name}`, `{uid}`. Any other replacement field raises
`KeyError`/`ValueError` in Python, aborting the whole run; the interpreter
returns `none` there. It is written with explicit fuel (an upper bound on
the number of steps, one input character consumed per step) so that it is
structurally recursive and evaluates inside the kernel. -/

/-- Step-bounded interpreter for `str.format`; `fuel ≥ s.length` always
suffices. -/
def formatFuel (ns nm uid : List Char) : Nat → List Char → Option (List Char)
  | 0, s => match s with
    | [] => some []
    | _ :: _ => none
  | fuel + 1, s =>
    match s with
    | [] => some []
    | '{' :: '{' :: rest => (formatFuel ns nm uid fuel rest).map ('{' :: ·)
    | '}' :: '}' :: rest => (formatFuel ns nm uid fuel rest).map ('}' :: ·)
    | '{' :: rest =>
      let fld := rest.takeWhile (· ≠ '}')
      match rest.dropWhile (· ≠ '}') with
      | '}' :: rest2 =>
        let sub : Option (List Char) :=
          if fld = "namespace".data then some ns
          else if fld = "name".data then some nm
          else if fld = "uid".data then some uid
          else none
        match sub with
        | none => none
        | some subv => (formatFuel ns nm uid fuel rest2).map (subv ++ ·)
      | _ => none
    | '}' :: _ => none
    | c :: rest => (formatFuel ns nm uid fuel rest).map (c :: ·)

/-- Embeds `opts.host_format.format(namespace=..., name=..., uid=...)`
(kubevirt.py lines 396-400); `none` models the fatal `KeyError` /
`ValueError` Python raises on a malformed format string. -/
def formatHost (fmt ns nm uid : String) : Option String :=
  (formatFuel ns.data nm.data uid.data fmt.data.length fmt.data).map
    (fun cs => String.mk cs)

example : formatHost "{namespace}-{name}" "default" "testvm" "u1" =
    some "default-testvm" := rfl

/-! ## The projector -/

/-- Embeds interface selection (kubevirt.py lines 383-390): with no
`network_name` the first interface is taken (`interfaces[0]`, guarded
non-empty by the caller); otherwise
`next((i for i in interfaces if i.name == network_name), None)`. -/
def selectInterface (network_name : Option String)
    (interfaces : List Interface) : Option Interface :=
  match network_name with
  | none => interfaces.head?
  | some n => interfaces.find? (fun i => i.name == some n)

/-- Embeds the `ansible_host` computation (kubevirt.py lines 429-436),
given the `ipAddress` of the selected interface. -/
def ansibleHost (opts : GetVmiOptions) (meta : VmiMetadata) (ip : String) :
    String :=
  match opts.kube_secondary_dns, opts.network_name with
  | true, some nn =>
    let host := nn ++ "." ++ meta.name ++ "." ++ meta.«namespace» ++ ".vm"
    match opts.base_domain with
    | some bd => host ++ "." ++ bd
    | none => host
  | _, _ => ip

/-- The group name built for one label pair (kubevirt.py line 411),
before sanitization. -/
def labelGroupStr (p : String × String) : String :=
  "label_" ++ p.1 ++ "_" ++ p.2

/-- Append an element to a list unless it is already present: the
behavior of `self.inventory.add_*` calls and of the
`if group_name not in vmi_groups: vmi_groups.append(group_name)` dedup. -/
def insertIfAbsent {α : Type} [DecidableEq α] (xs : List α) (x : α) :
    List α :=
  if x ∈ xs then xs else xs ++ [x]

/-- Embeds the accumulation of `vmi_groups` (kubevirt.py lines 408-414):
the sanitized label group names in first-occurrence order, deduplicated by
sanitized name. `sanitize` is the externally supplied
`self._sanitize_group_name`. -/
def labelGroupNames (sanitize : String → String)
    (pairs : List (String × String)) : List String :=
  pairs.foldl (fun acc p => insertIfAbsent acc (sanitize (labelGroupStr p))) []

/-- One call issued against the inventory graph sink. -/
inductive Mutation where
  | addGroup (group : String)
  | addChild (parent child : String)
  | addHost (host : String)
  | setVar (host key : String) (value : ApiValue)
deriving Repr

/-- Decoding of an optional structured field stored as a mapping variable:
`{} if not field else self.__resource_field_to_dict(field)`. -/
def decodeOptMap : Option ApiValue → ApiValue
  | none => .dictV []
  | some v => resource_field_to_dict v

/-- Decoding of an optional sequence field stored as a list variable:
`[] if not field else [self.__resource_field_to_dict(x) for x in field]`. -/
def decodeOptList : Option (List ApiValue) → ApiValue
  | none => .list []
  | some xs => .list (decodeItems xs)

/-- The `ResourceField` view of one interface record, as decoded into the
`vmi_interfaces` host variable. -/
def interfaceValue (i : Interface) : ApiValue :=
  resource_field_to_dict
    (.field [("name", optStr i.name), ("ipAddress", optStr i.ipAddress)])

/-- The `ResourceField` view of a string-valued mapping such as
`metadata.labels` or `metadata.annotations`. -/
def stringMapField (pairs : List (String × String)) : ApiValue :=
  .field (pairs.map (fun p => (p.1, .str p.2)))

/-- The mutations issued for one VMI that passed all gating checks
(kubevirt.py lines 396-517), in program order. `vmiName` is the formatted
host identifier, `ifaces` the full interface list and `ip` the selected
interface's address. -/
def includedVmiMuts (sanitize : String → String) (opts : GetVmiOptions)
    (nsVmisGroup : String) (meta : VmiMetadata) (st : VmiStatus)
    (ifaces : List Interface) (ip : String) (vmiName : String) :
    List Mutation :=
  let labelPairs := meta.labels.getD []
  let vmiGroups := labelGroupNames sanitize labelPairs
  let vmiLabels := resource_field_to_dict (stringMapField labelPairs)
  let vmiAnnotations :=
    match meta.annotations with
    | none => ApiValue.dictV []
    | some pairs => resource_field_to_dict (stringMapField pairs)
  (labelPairs.map (fun p => Mutation.addGroup (sanitize (labelGroupStr p)))) ++
  [Mutation.addHost vmiName,
   Mutation.addChild nsVmisGroup vmiName] ++
  (vmiGroups.map (fun g => Mutation.addChild g vmiName)) ++
  [Mutation.setVar vmiName "ansible_connection" (.str "ssh"),
   Mutation.setVar vmiName "ansible_host" (.str (ansibleHost opts meta ip)),
   Mutation.setVar vmiName "object_type" (.str "vmi"),
   Mutation.setVar vmiName "labels" vmiLabels,
   Mutation.setVar vmiName "annotations" vmiAnnotations,
   Mutation.setVar vmiName "cluster_name" (optStr meta.clusterName),
   Mutation.setVar vmiName "resource_version" (optStr meta.resourceVersion),
   Mutation.setVar vmiName "uid" (.str meta.uid),
   Mutation.setVar vmiName "vmi_active_pods" (decodeOptMap st.activePods),
   Mutation.setVar vmiName "vmi_conditions" (decodeOptList st.conditions),
   Mutation.setVar vmiName "vmi_guest_os_info" (decodeOptMap st.guestOSInfo),
   Mutation.setVar vmiName "vmi_interfaces" (.list (ifaces.map interfaceValue)),
   Mutation.setVar vmiName "vmi_launcher_container_image_version"
     (optStr st.launcherContainerImageVersion),
   Mutation.setVar vmiName "vmi_migration_method" (optStr st.migrationMethod),
   Mutation.setVar vmiName "vmi_migration_transport"
     (optStr st.migrationTransport),
   Mutation.setVar vmiName "vmi_node_name" (optStr st.nodeName),
   Mutation.setVar vmiName "vmi_phase" (optStr st.phase),
   Mutation.setVar vmiName "vmi_phase_transition_timestamps"
     (decodeOptList st.phaseTransitionTimestamps),
   Mutation.setVar vmiName "vmi_qos_class" (optStr st.qosClass),
   Mutation.setVar vmiName "vmi_virtual_machine_revision_name"
     (optStr st.virtualMachineRevisionName),
   Mutation.setVar vmiName "vmi_volume_status" (decodeOptList st.volumeStatus)]

/-- Embeds the body of the `for vmi in vmi_list.items` loop (kubevirt.py
lines 379-517) for one VMI: the gating checks
(`not (vmi.status and vmi.status.interfaces)`, interface not found,
`interface.ipAddress is None`) yield no mutations; a malformed
`host_format` raises, modelled as `none`. -/
def perVmiMuts (sanitize : String → String) (opts : GetVmiOptions)
    (nsVmisGroup : String) (vmi : Vmi) : Option (List Mutation) :=
  match vmi.status with
  | none => some []
  | some st =>
    match st.interfaces with
    | none => some []
    | some [] => some []
    | some (i0 :: irest) =>
      match selectInterface opts.network_name (i0 :: irest) with
      | none => some []
      | some iface =>
        match iface.ipAddress with
        | none => some []
        | some ip =>
          match formatHost opts.host_format vmi.metadata.«namespace»
              vmi.metadata.name vmi.metadata.uid with
          | none => none
          | some vmiName =>
            some (includedVmiMuts sanitize opts nsVmisGroup vmi.metadata st
              (i0 :: irest) ip vmiName)

/-- The unconditional group scaffolding mutations (kubevirt.py lines
366-377): connection group, namespace group, namespace-VMIs group and
their parent/child edges. Note `namespace_vmis_group` is derived from the
raw (unsanitized) namespace group name, exactly as in the source. -/
def setupMuts (sanitize : String → String) (connectionName ns : String) :
    List Mutation :=
  let name := sanitize connectionName
  let nsGroup := sanitize ("namespace_" ++ ns)
  let nsVmisGroup := sanitize ("namespace_" ++ ns ++ "_vmis")
  [Mutation.addGroup name,
   Mutation.addGroup nsGroup,
   Mutation.addChild name nsGroup,
   Mutation.addGroup nsVmisGroup,
   Mutation.addChild nsGroup nsVmisGroup]

/-- All mutations issued by one `get_vmis_for_namespace` call for an
already-fetched VMI list; `none` models the fatal formatting error. -/
def projectMuts (sanitize : String → String) (connectionName ns : String)
    (vmiList : List Vmi) (opts : GetVmiOptions) : Option (List Mutation) :=
  (vmiList.mapM
      (perVmiMuts sanitize opts (sanitize ("namespace_" ++ ns ++ "_vmis")))).map
    (fun ls => setupMuts sanitize connectionName ns ++ ls.flatten)

/-! ## The inventory graph sink

Modelled from the spec: the Ansible inventory object itself lives outside
this repository. Per the spec's collaborator interface, `addGroup`,
`addChild` and `addHost` are idempotent insertions and `setVariable`
overwrites the variable's previous value. -/

/-- One host variable binding: host, key, value. -/
abbrev VarEntry := String × String × ApiValue

/-- The (host, key) a variable binding is stored under. -/
def varKey (e : VarEntry) : String × String := (e.1, e.2.1)

/-- Overwrite every binding stored under key `q` with value `v`. -/
def owr (q : String × String) (v : ApiValue) (vs : List VarEntry) :
    List VarEntry :=
  vs.map (fun e => if varKey e = q then (q.1, q.2, v) else e)

/-- `setVariable`: overwrite the binding under `(h, k)` if present, else
append a new binding. -/
def setVarList (vs : List VarEntry) (h k : String) (v : ApiValue) :
    List VarEntry :=
  if (h, k) ∈ vs.map varKey then owr (h, k) v vs else vs ++ [(h, k, v)]

/-- The inventory graph state: group names, host names, parent/child
edges, and host variable bindings. -/
structure Inventory where
  groups : List String
  hosts : List String
  children : List (String × String)
  vars : List VarEntry

/-- The empty inventory graph. -/
def emptyInventory : Inventory := ⟨[], [], [], []⟩

/-- Interpret one sink call on the graph state. -/
def applyMut (inv : Inventory) : Mutation → Inventory
  | .addGroup g => { inv with groups := insertIfAbsent inv.groups g }
  | .addChild p c => { inv with children := insertIfAbsent inv.children (p, c) }
  | .addHost h => { inv with hosts := insertIfAbsent inv.hosts h }
  | .setVar h k v => { inv with vars := setVarList inv.vars h k v }

/-- Interpret a sequence of sink calls, left to right. -/
def applyMuts (inv : Inventory) (ms : List Mutation) : Inventory :=
  ms.foldl applyMut inv

/-- The value of variable `key` of host `host`, if set. -/
def lookupVar (inv : Inventory) (host key : String) : Option ApiValue :=
  (inv.vars.find? (fun e => varKey e = (host, key))).map (fun e => e.2.2)

/-- Embeds one `get_vmis_for_namespace` call acting on an inventory graph
(`none` models the fatal formatting error aborting the run). -/
def project (sanitize : String → String) (connectionName ns : String)
    (vmiList : List Vmi) (opts : GetVmiOptions) (inv : Inventory) :
    Option Inventory :=
  (projectMuts sanitize connectionName ns vmiList opts).map (applyMuts inv)

/-! ## Connection group naming -/

/-- Replace every (leftmost, non-overlapping) occurrence of `pat` in the
input by `rep`, the semantics of Python `str.replace`; structurally
recursive on fuel, `fuel ≥ s.length` suffices. -/
def replaceFuel (pat rep : List Char) : Nat → List Char → List Char
  | 0, s => s
  | fuel + 1, s =>
    match s with
    | [] => []
    | c :: rest =>
      if pat ≠ [] ∧ pat.isPrefixOf (c :: rest) then
        rep ++ replaceFuel pat rep fuel ((c :: rest).drop pat.length)
      else c :: replaceFuel pat rep fuel rest

/-- Python `host.replace(old, new)` for non-empty `old`. -/
def pyReplace (s pat rep : String) : String :=
  String.mk (replaceFuel pat.data rep.data s.data.length s.data)

/-- Embeds `InventoryModule.get_default_host_name` (kubevirt.py lines
205-216): strip URL schemes and replace invalid characters, by chained
`str.replace` calls. -/
def get_default_host_name (host : String) : String :=
  pyReplace (pyReplace (pyReplace (pyReplace host "https://" "")
    "http://" "") "." "-") ":" "_"

example : get_default_host_name "https://192.168.64.4:8443" =
    "192-168-64-4_8443" := rfl

/-- Modelled from the claim's words (C10): derive the name by removing
only a single LEADING `https://` or `http://` and then replacing `.` and
`:`. Stated for comparison with `get_default_host_name`, which is the
source of truth. -/
def leadingSchemeHostName (host : String) : String :=
  let d := host.data
  let d :=
    if "https://".data.isPrefixOf d then d.drop 8
    else if "http://".data.isPrefixOf d then d.drop 7
    else d
  pyReplace (pyReplace (String.mk d) "." "-") ":" "_"

/-! ## The VM module's manifest renderer (`plugins/modules/kubevirt_vm.py`)

`render_template` feeds the module parameters through the Jinja2 template
`VM_TEMPLATE` (lines 219-287) and the result is parsed back into a
Kubernetes object by the generic runner. The embedding below produces the
abstract syntax of that YAML document directly; each `{% if x %}` of the
template becomes a test for Jinja2 truthiness (absent values, empty
strings, and empty collections are falsy). -/

/-- The `infer_from_volume` suboptions of the module. -/
structure InferFromVolume where
  instancetype : Option String
  preference : Option String

/-- The module parameters consumed by `VM_TEMPLATE` (see `arg_spec`,
kubevirt_vm.py lines 401-428). Note the spec has no `running` and no
`termination_grace_period` parameter. -/
structure VmParams where
  api_version : String
  name : Option String
  generate_name : Option String
  «namespace» : String
  annotations : Option (List (String × String))
  labels : Option (List (String × String))
  instancetype : Option String
  preference : Option String
  infer_from_volume : Option InferFromVolume
  interfaces : Option (List ApiValue)
  networks : Option (List ApiValue)
  volumes : Option (List ApiValue)

/-- Jinja2 truthiness of an optional string. -/
def truthyStr : Option String → Bool
  | none => false
  | some s => !s.isEmpty

/-- Jinja2 truthiness of an optional collection. -/
def truthyList {α : Type} : Option (List α) → Bool
  | none => false
  | some l => !l.isEmpty

/-- A rendered `spec.instancetype` / `spec.preference` block. -/
structure TypeRefBlock where
  name : Option String
  inferFromVolume : Option String
deriving DecidableEq, Repr

/-- Abstract syntax of the YAML document produced by `VM_TEMPLATE`: a
field is `none` exactly when the corresponding key is absent from the
rendered manifest. -/
structure VmManifest where
  apiVersion : String
  kind : String
  name : Option String
  generateName : Option String
  «namespace» : String
  annotations : Option (List (String × String))
  labels : Option (List (String × String))
  instancetype : Option TypeRefBlock
  preference : Option TypeRefBlock
  running : Bool
  templateAnnotations : Option (List (String × String))
  templateLabels : Option (List (String × String))
  interfaces : Option (List ApiValue)
  networks : Option (List ApiValue)
  volumes : Option (List ApiValue)
  terminationGracePeriodSeconds : Option Int

/-- Embeds `render_template` (kubevirt_vm.py lines 388-398) applied to
`VM_TEMPLATE` (lines 219-287): the manifest it renders. `spec.running` is
the literal `true` in the template (line 257) and the template contains no
`terminationGracePeriodSeconds` key at all. -/
def render_template (p : VmParams) : VmManifest :=
  let inferI := p.infer_from_volume.bind (fun f => f.instancetype)
  let inferP := p.infer_from_volume.bind (fun f => f.preference)
  { apiVersion := p.api_version
    kind := "VirtualMachine"
    name := if truthyStr p.name then p.name else none
    generateName := if truthyStr p.generate_name then p.generate_name else none
    «namespace» := p.«namespace»
    annotations := if truthyList p.annotations then p.annotations else none
    labels := if truthyList p.labels then p.labels else none
    instancetype :=
      if truthyStr p.instancetype || truthyStr inferI then
        some { name := if truthyStr p.instancetype then p.instancetype else none
               inferFromVolume := if truthyStr inferI then inferI else none }
      else none
    preference :=
      if truthyStr p.preference || truthyStr inferP then
        some { name := if truthyStr p.preference then p.preference else none
               inferFromVolume := if truthyStr inferP then inferP else none }
      else none
    running := true
    templateAnnotations :=
      if truthyList p.annotations then p.annotations else none
    templateLabels := if truthyList p.labels then p.labels else none
    interfaces := if truthyList p.interfaces then p.interfaces else none
    networks := if truthyList p.networks then p.networks else none
    volumes := if truthyList p.volumes then p.volumes else none
    terminationGracePeriodSeconds := none }

/-! ## Auxiliary definitions used by the theorems -/

/-- Modelled from the spec: the externally supplied Ansible
`_sanitize_group_name` normalization ("alphanumeric + underscore,
collapsing invalid characters"). The projector is parametrized over the
sanitization function; this concrete instance is used to evaluate
theorems on concrete inputs. -/
def sanitizeDefault (s : String) : String :=
  String.mk (s.data.map (fun c => if c.isAlphanum || c == '_' then c else '_'))

/-- The gating conditions under which the loop body skips a VMI
(kubevirt.py lines 379-394): missing status, missing or empty
`status.interfaces`, interface not found, or selected interface with
`ipAddress is None`. -/
def vmiExcluded (opts : GetVmiOptions) (vmi : Vmi) : Bool :=
  match vmi.status with
  | none => true
  | some st =>
    match st.interfaces with
    | none => true
    | some [] => true
    | some (i0 :: irest) =>
      match selectInterface opts.network_name (i0 :: irest) with
      | none => true
      | some iface => iface.ipAddress.isNone

/-- Modelled from the claim's words (C4): `ansible_host` with
`.{baseDomain}` appended if and only if `baseDomain` is non-empty. Stated
for comparison with `ansibleHost`, which is the source of truth. -/
def claimAnsibleHost (opts : GetVmiOptions) (meta : VmiMetadata)
    (ip : String) : String :=
  match opts.kube_secondary_dns, opts.network_name with
  | true, some nn =>
    let host := nn ++ "." ++ meta.name ++ "." ++ meta.«namespace» ++ ".vm"
    match opts.base_domain with
    | some bd => if bd.isEmpty then host else host ++ "." ++ bd
    | none => host
  | _, _ => ip

mutual
/-- No `dictV` constructor occurs in the value: it is a raw API value as
delivered by the dynamic client (wrapper records, sequences, scalars). -/
def noDict : ApiValue → Bool
  | .field ms => noDictPairs ms
  | .list xs => noDictItems xs
  | .dictV _ => false
  | _ => true

/-- `noDict` over the members of a wrapper record. -/
def noDictPairs : List (String × ApiValue) → Bool
  | [] => true
  | (_, v) :: rest => noDict v && noDictPairs rest

/-- `noDict` over the elements of a sequence. -/
def noDictItems : List ApiValue → Bool
  | [] => true
  | v :: rest => noDict v && noDictItems rest
end

mutual
/-- No `field` constructor occurs in the value: the raw wrapper type does
not leak into the decoded result. -/
def noField : ApiValue → Bool
  | .field _ => false
  | .list xs => noFieldItems xs
  | .dictV ms => noFieldPairs ms
  | _ => true

/-- `noField` over the members of a mapping. -/
def noFieldPairs : List (String × ApiValue) → Bool
  | [] => true
  | (_, v) :: rest => noField v && noFieldPairs rest

/-- `noField` over the elements of a sequence. -/
def noFieldItems : List ApiValue → Bool
  | [] => true
  | v :: rest => noField v && noFieldItems rest
end

/-- A scalar value: neither wrapper record, nor sequence, nor mapping. -/
def isScalar : ApiValue → Bool
  | .field _ => false
  | .list _ => false
  | .dictV _ => false
  | _ => true

/-- A status record whose fields are all absent except the given
interface list. -/
def statusWithInterfaces (ifaces : List Interface) : VmiStatus :=
  ⟨some ifaces, none, none, none, none, none, none, none, none, none,
   none, none, none⟩

/-- Metadata with only name/namespace/uid populated. -/
def plainMeta (name ns uid : String) : VmiMetadata :=
  ⟨name, ns, uid, none, none, none, none⟩

/-- The options produced by an all-defaults connection
(`GetVmiOptions(None, None, None, False, None, None)`). -/
def defaultOpts : GetVmiOptions :=
  mkGetVmiOptions none none none false none none

/-- C1's counterexample input: one interface whose `ipAddress` is the
empty string (present but empty). -/
def c1cexVmi : Vmi :=
  ⟨plainMeta "vm1" "ns1" "uid1",
   some (statusWithInterfaces [⟨some "eth0", some ""⟩])⟩

/-- C1's witness input: a VMI with an empty interface list. -/
def c1wVmi : Vmi :=
  ⟨plainMeta "vm1" "ns1" "uid1", some (statusWithInterfaces [])⟩

/-- C3's witness input: two labels, one reachable interface. -/
def c3wVmi : Vmi :=
  ⟨{ name := "vm1", «namespace» := "ns1", uid := "uid1",
     labels := some [("app", "x"), ("tier", "y")], annotations := none,
     clusterName := none, resourceVersion := none },
   some (statusWithInterfaces [⟨some "eth0", some "10.0.0.1"⟩])⟩

/-- C5's collision inputs: same namespace and name (hence the same
formatted host identifier under the default format), different uids. -/
def c5v1 : Vmi :=
  ⟨plainMeta "vm1" "ns1" "u1",
   some (statusWithInterfaces [⟨some "eth0", some "10.0.0.1"⟩])⟩

/-- Second colliding VMI, listed after `c5v1`. -/
def c5v2 : Vmi :=
  ⟨plainMeta "vm1" "ns1" "u2",
   some (statusWithInterfaces [⟨some "eth0", some "10.0.0.2"⟩])⟩

/-- C4's witness/counterexample options: secondary DNS on, network
`br`, base domain present but empty. -/
def c4cexOpts : GetVmiOptions :=
  ⟨"kubevirt.io/v1", none, some "br", true, some "", "{namespace}-{name}"⟩

/-- The module arguments of the repository's own unit test
`test_create` (tests/unit/modules/test_module_kubevirt_vm.py), whose
expected manifest `FIXTURE1` contains
`spec.template.spec.terminationGracePeriodSeconds: 180`. -/
def c7TestParams : VmParams :=
  { api_version := "kubevirt.io/v1", name := some "testvm",
    generate_name := none, «namespace» := "default", annotations := none,
    labels := some [("environment", "staging"), ("service", "loadbalancer")],
    instancetype := none, preference := none, infer_from_volume := none,
    interfaces := none, networks := none, volumes := none }

/-- C4's witness input: one interface on the secondary network `br`. -/
def c4wVmi : Vmi :=
  ⟨plainMeta "vm1" "ns1" "u1",
   some (statusWithInterfaces [⟨some "br", some "10.0.0.1"⟩])⟩

/-- The group names added by a mutation sequence. -/
def groupAdds (ms : List Mutation) : List String :=
  ms.filterMap (fun m => match m with | .addGroup g => some g | _ => none)

/-- The host names added by a mutation sequence. -/
def hostAdds (ms : List Mutation) : List String :=
  ms.filterMap (fun m => match m with | .addHost h => some h | _ => none)

/-- The parent/child edges added by a mutation sequence. -/
def childAdds (ms : List Mutation) : List (String × String) :=
  ms.filterMap (fun m => match m with | .addChild p c => some (p, c) | _ => none)

/-- The variable bindings set by a mutation sequence, in order. -/
def varSets (ms : List Mutation) : List VarEntry :=
  ms.filterMap (fun m => match m with | .setVar h k v => some (h, k, v) | _ => none)

/-- Fold a list of idempotent insertions. -/
def foldIns {α : Type} [DecidableEq α] (xs ys : List α) : List α :=
  ys.foldl insertIfAbsent xs

/-- Apply a list of `setVariable` calls. -/
def applySets (vs ss : List VarEntry) : List VarEntry :=
  ss.foldl (fun acc e => setVarList acc e.1 e.2.1 e.2.2) vs

/-! ## General lemmas -/

theorem mem_insertIfAbsent {α : Type} [DecidableEq α] (xs : List α)
    (x y : α) : y ∈ insertIfAbsent xs x ↔ y ∈ xs ∨ y = x := by
  unfold insertIfAbsent
  split
  · next h => exact ⟨Or.inl, fun h' => h'.elim id (fun he => he ▸ h)⟩
  · simp

theorem nodup_insertIfAbsent {α : Type} [DecidableEq α] {xs : List α}
    (h : xs.Nodup) (x : α) : (insertIfAbsent xs x).Nodup := by
  unfold insertIfAbsent
  split
  · exact h
  · next hx => simp [List.nodup_append, h, hx]

theorem mem_foldl_labelInsert (s : String → String) (acc : List String)
    (l : List (String × String)) (g : String) :
    g ∈ l.foldl (fun a p => insertIfAbsent a (s (labelGroupStr p))) acc ↔
      g ∈ acc ∨ ∃ p ∈ l, g = s (labelGroupStr p) := by
  induction l generalizing acc with
  | nil => simp
  | cons p rest ih =>
    rw [List.foldl_cons, ih, mem_insertIfAbsent]
    constructor
    · rintro (⟨h | h⟩ | ⟨q, hq, rfl⟩)
      · exact Or.inl h
      · exact Or.inr ⟨p, List.mem_cons_self .., h⟩
      · exact Or.inr ⟨q, List.mem_cons_of_mem _ hq, rfl⟩
    · rintro (h | ⟨q, hq, rfl⟩)
      · exact Or.inl (Or.inl h)
      · rcases List.mem_cons.mp hq with rfl | hq
        · exact Or.inl (Or.inr rfl)
        · exact Or.inr ⟨q, hq, rfl⟩

theorem mem_labelGroupNames (s : String → String)
    (l : List (String × String)) (g : String) :
    g ∈ labelGroupNames s l ↔ ∃ p ∈ l, g = s (labelGroupStr p) := by
  simpa [labelGroupNames] using mem_foldl_labelInsert s [] l g

theorem nodup_foldl_labelInsert (s : String → String) {acc : List String}
    (h : acc.Nodup) (l : List (String × String)) :
    (l.foldl (fun a p => insertIfAbsent a (s (labelGroupStr p))) acc).Nodup := by
  induction l generalizing acc with
  | nil => exact h
  | cons p rest ih => exact ih (nodup_insertIfAbsent h _)

theorem nodup_labelGroupNames (s : String → String)
    (l : List (String × String)) : (labelGroupNames s l).Nodup :=
  nodup_foldl_labelInsert s List.nodup_nil l

theorem decodePairs_eq_map (ms : List (String × ApiValue)) :
    decodePairs ms = ms.map (fun p => (p.1, resource_field_to_dict p.2)) := by
  induction ms with
  | nil => rfl
  | cons p rest ih => cases p; simp [decodePairs, ih]

theorem decodeItems_eq_map (xs : List ApiValue) :
    decodeItems xs = xs.map resource_field_to_dict := by
  induction xs with
  | nil => rfl
  | cons v rest ih => simp [decodeItems, ih]

theorem decode_scalar {v : ApiValue} (h : isScalar v = true) :
    resource_field_to_dict v = v := by
  cases v <;> simp_all [isScalar, resource_field_to_dict]

theorem perVmiMuts_included (sanitize : String → String)
    (opts : GetVmiOptions) (nsg : String) (vmi : Vmi) (st : VmiStatus)
    (ifaces : List Interface) (iface : Interface) (ip vmiName : String)
    (h1 : vmi.status = some st) (h2 : st.interfaces = some ifaces)
    (h3 : ifaces ≠ [])
    (h4 : selectInterface opts.network_name ifaces = some iface)
    (h5 : iface.ipAddress = some ip)
    (h6 : formatHost opts.host_format vmi.metadata.«namespace»
            vmi.metadata.name vmi.metadata.uid = some vmiName) :
    perVmiMuts sanitize opts nsg vmi =
      some (includedVmiMuts sanitize opts nsg vmi.metadata st ifaces ip
        vmiName) := by
  cases ifaces with
  | nil => exact absurd rfl h3
  | cons i0 irest => simp only [perVmiMuts, h1, h2, h4, h5, h6]

theorem find?_first {α : Type} (p : α → Bool) (l : List α) (a : α)
    (h : l.find? p = some a) :
    p a = true ∧ ∃ pre post, l = pre ++ a :: post ∧ ∀ x ∈ pre, p x = false := by
  induction l with
  | nil => simp [List.find?] at h
  | cons x rest ih =>
    by_cases hx : p x
    · rw [List.find?_cons_of_pos _ hx] at h
      cases h
      exact ⟨hx, [], rest, rfl, by simp⟩
    · rw [List.find?_cons_of_neg _ (by simpa using hx)] at h
      obtain ⟨hp, pre, post, rfl, hpre⟩ := ih h
      refine ⟨hp, x :: pre, post, rfl, ?_⟩
      intro y hy
      rcases List.mem_cons.mp hy with rfl | hy
      · simpa using hx
      · exact hpre y hy

/-! ## Idempotence of replaying a mutation sequence -/

theorem applyMuts_components (ms : List Mutation) (inv : Inventory) :
    applyMuts inv ms =
      ⟨foldIns inv.groups (groupAdds ms), foldIns inv.hosts (hostAdds ms),
       foldIns inv.children (childAdds ms), applySets inv.vars (varSets ms)⟩ := by
  induction ms generalizing inv with
  | nil => rfl
  | cons m rest ih =>
    have step : applyMuts inv (m :: rest) = applyMuts (applyMut inv m) rest := rfl
    rw [step, ih]
    cases m <;> rfl

theorem mem_foldIns_left {α : Type} [DecidableEq α] {xs : List α}
    {x : α} (h : x ∈ xs) (ys : List α) : x ∈ foldIns xs ys := by
  induction ys generalizing xs with
  | nil => exact h
  | cons y rest ih =>
    exact ih ((mem_insertIfAbsent xs y x).mpr (Or.inl h))

theorem mem_foldIns_right {α : Type} [DecidableEq α] (xs : List α)
    {ys : List α} {x : α} (h : x ∈ ys) : x ∈ foldIns xs ys := by
  induction ys generalizing xs with
  | nil => cases h
  | cons y rest ih =>
    rcases List.mem_cons.mp h with rfl | h
    · exact mem_foldIns_left ((mem_insertIfAbsent xs x x).mpr (Or.inr rfl)) rest
    · exact ih _ h

theorem foldIns_eq_of_subset {α : Type} [DecidableEq α] {xs ys : List α}
    (h : ∀ y ∈ ys, y ∈ xs) : foldIns xs ys = xs := by
  induction ys with
  | nil => rfl
  | cons y rest ih =>
    have hy : insertIfAbsent xs y = xs := by
      unfold insertIfAbsent
      exact if_pos (h y (List.mem_cons_self ..))
    show foldIns (insertIfAbsent xs y) rest = xs
    rw [hy]
    exact ih (fun z hz => h z (List.mem_cons_of_mem _ hz))

theorem foldIns_idem {α : Type} [DecidableEq α] (xs ys : List α) :
    foldIns (foldIns xs ys) ys = foldIns xs ys :=
  foldIns_eq_of_subset (fun _ hy => mem_foldIns_right xs hy)

theorem keys_owr (q : String × String) (v : ApiValue) (vs : List VarEntry) :
    (owr q v vs).map varKey = vs.map varKey := by
  induction vs with
  | nil => rfl
  | cons e rest ih =>
    simp only [owr, List.map_cons] at ih ⊢
    refine congrArg₂ List.cons ?_ ih
    split
    · next h => exact h.symm
    · rfl

theorem varKey_pair (q : String × String) (v : ApiValue) :
    varKey (q.1, q.2, v) = q := rfl

theorem applySets_cons (vs : List VarEntry) (s : VarEntry)
    (ss : List VarEntry) :
    applySets vs (s :: ss) = applySets (setVarList vs s.1 s.2.1 s.2.2) ss := rfl

theorem mem_keys_setVarList (vs : List VarEntry) (h k : String)
    (v : ApiValue) {q : String × String} (hq : q ∈ vs.map varKey) :
    q ∈ (setVarList vs h k v).map varKey := by
  unfold setVarList
  split
  · rw [keys_owr]; exact hq
  · rw [List.map_append]; exact List.mem_append_left _ hq

theorem mem_keys_setVarList_self (vs : List VarEntry) (h k : String)
    (v : ApiValue) : (h, k) ∈ (setVarList vs h k v).map varKey := by
  unfold setVarList
  split
  · next hin => rw [keys_owr]; exact hin
  · rw [List.map_append]
    exact List.mem_append_right _ (by simp [varKey])

theorem owr_owr_same (q : String × String) (v w : ApiValue)
    (vs : List VarEntry) : owr q v (owr q w vs) = owr q v vs := by
  induction vs with
  | nil => rfl
  | cons e rest ih =>
    simp only [owr, List.map_cons] at ih ⊢
    refine congrArg₂ List.cons ?_ ih
    by_cases h : varKey e = q
    · simp [h, varKey_pair]
    · simp [h]

theorem owr_comm {p q : String × String} (hpq : p ≠ q) (v w : ApiValue)
    (vs : List VarEntry) :
    owr p v (owr q w vs) = owr q w (owr p v vs) := by
  induction vs with
  | nil => rfl
  | cons e rest ih =>
    simp only [owr, List.map_cons] at ih ⊢
    refine congrArg₂ List.cons ?_ ih
    by_cases hq : varKey e = q <;> by_cases hp : varKey e = p
    · exact absurd (hp.symm.trans hq) hpq
    · simp [hq, hp, varKey_pair, Ne.symm hpq]
    · simp [hq, hp, varKey_pair, hpq]
    · simp [hq, hp]

theorem owr_append (q : String × String) (v : ApiValue)
    (vs ws : List VarEntry) :
    owr q v (vs ++ ws) = owr q v vs ++ owr q v ws := by
  simp [owr]

theorem owr_singleton_ne {e : VarEntry} {q : String × String}
    (h : varKey e ≠ q) (v : ApiValue) : owr q v [e] = [e] := by
  simp [owr, h]

theorem owr_eq_self (q : String × String) (v : ApiValue) :
    ∀ vs : List VarEntry,
      (∀ e ∈ vs, varKey e = q → e = (q.1, q.2, v)) → owr q v vs = vs
  | [], _ => rfl
  | e :: rest, h => by
    have ht := owr_eq_self q v rest
      (fun x hx hk => h x (List.mem_cons_of_mem _ hx) hk)
    simp only [owr, List.map_cons] at ht ⊢
    refine congrArg₂ List.cons ?_ ht
    by_cases hk : varKey e = q
    · rw [if_pos hk]
      exact (h e (List.mem_cons_self ..) hk).symm
    · exact if_neg hk

theorem setVarList_eq_owr (vs : List VarEntry) (h k : String)
    (v : ApiValue) (hin : (h, k) ∈ vs.map varKey) :
    setVarList vs h k v = owr (h, k) v vs := by
  unfold setVarList; exact if_pos hin

theorem setVarList_eq_append (vs : List VarEntry) (h k : String)
    (v : ApiValue) (hnin : (h, k) ∉ vs.map varKey) :
    setVarList vs h k v = vs ++ [(h, k, v)] := by
  unfold setVarList; exact if_neg hnin

theorem setVarList_entry_eq (vs : List VarEntry) (h k : String)
    (v : ApiValue) :
    ∀ e ∈ setVarList vs h k v, varKey e = (h, k) → e = (h, k, v) := by
  intro e he hk
  unfold setVarList at he
  split at he
  · obtain ⟨e', he', rfl⟩ := List.mem_map.mp he
    by_cases h' : varKey e' = (h, k)
    · simp [h']
    · rw [if_neg h'] at hk
      exact absurd hk h'
  · next hnotin =>
    rcases List.mem_append.mp he with he | he
    · exact absurd (hk ▸ List.mem_map_of_mem varKey he) hnotin
    · simpa using he

theorem mem_keys_applySets :
    ∀ (ss vs : List VarEntry) {q : String × String},
      q ∈ vs.map varKey → q ∈ (applySets vs ss).map varKey
  | [], _, _, hq => hq
  | s :: rest, vs, _, hq =>
    mem_keys_applySets rest _ (mem_keys_setVarList vs s.1 s.2.1 s.2.2 hq)

theorem applySets_entry_eq (q : String × String) (v : ApiValue) :
    ∀ (ss vs : List VarEntry), q ∉ ss.map varKey →
      (∀ e ∈ vs, varKey e = q → e = (q.1, q.2, v)) →
      ∀ e ∈ applySets vs ss, varKey e = q → e = (q.1, q.2, v)
  | [], _, _, hvs => hvs
  | s :: rest, vs, hq, hvs => by
    have hq' : q ∉ rest.map varKey := fun hh => hq (List.mem_cons_of_mem _ hh)
    have hs : varKey s ≠ q := fun hh =>
      hq (List.mem_cons.mpr (Or.inl hh.symm))
    have hpres : ∀ e ∈ setVarList vs s.1 s.2.1 s.2.2,
        varKey e = q → e = (q.1, q.2, v) := by
      intro e he hk
      unfold setVarList at he
      split at he
      · obtain ⟨e', he', rfl⟩ := List.mem_map.mp he
        by_cases h' : varKey e' = (s.1, s.2.1)
        · rw [if_pos h'] at hk
          exact absurd hk hs
        · rw [if_neg h'] at hk ⊢
          exact hvs e' he' hk
      · rcases List.mem_append.mp he with he | he
        · exact hvs e he hk
        · have heq : e = (s.1, s.2.1, s.2.2) := by simpa using he
          rw [heq] at hk
          exact absurd hk hs
    exact applySets_entry_eq q v rest _ hq' hpres

theorem applySets_owr (q : String × String) (v : ApiValue) :
    ∀ (ss vs : List VarEntry), q ∈ vs.map varKey →
      applySets (owr q v vs) ss =
        if q ∈ ss.map varKey then applySets vs ss
        else owr q v (applySets vs ss)
  | [], vs, _ => by simp [applySets]
  | s :: rest, vs, hq => by
    by_cases hs : ((s.1 : String), s.2.1) = q
    · have hin : (s.1, s.2.1) ∈ (owr q v vs).map varKey := by
        rw [keys_owr, hs]; exact hq
      have hin' : (s.1, s.2.1) ∈ vs.map varKey := by
        rw [hs]; exact hq
      have hmem : q ∈ List.map varKey (s :: rest) := by
        rw [List.map_cons]
        exact List.mem_cons.mpr (Or.inl hs.symm)
      rw [applySets_cons, setVarList_eq_owr _ _ _ _ hin, if_pos hmem,
        applySets_cons, setVarList_eq_owr _ _ _ _ hin', hs, owr_owr_same]
    · have hcond : (q ∈ List.map varKey (s :: rest)) ↔
          (q ∈ List.map varKey rest) := by
        rw [List.map_cons, List.mem_cons]
        exact ⟨fun h => h.elim (fun h1 => absurd h1.symm hs) id, Or.inr⟩
      have hmono : q ∈ (setVarList vs s.1 s.2.1 s.2.2).map varKey :=
        mem_keys_setVarList vs s.1 s.2.1 s.2.2 hq
      by_cases hk : ((s.1 : String), s.2.1) ∈ vs.map varKey
      · have hin : (s.1, s.2.1) ∈ (owr q v vs).map varKey := by
          rw [keys_owr]; exact hk
        rw [applySets_cons, setVarList_eq_owr _ _ _ _ hin,
          owr_comm hs s.2.2 v vs,
          ← setVarList_eq_owr vs s.1 s.2.1 s.2.2 hk,
          applySets_owr q v rest _ hmono, applySets_cons]
        exact if_congr hcond.symm rfl rfl
      · have hnin : (s.1, s.2.1) ∉ (owr q v vs).map varKey := by
          rw [keys_owr]; exact hk
        rw [applySets_cons, setVarList_eq_append _ _ _ _ hnin,
          ← owr_singleton_ne (q := q) (e := (s.1, s.2.1, s.2.2)) hs v,
          ← owr_append,
          ← setVarList_eq_append vs s.1 s.2.1 s.2.2 hk,
          applySets_owr q v rest _ hmono, applySets_cons]
        exact if_congr hcond.symm rfl rfl

theorem applySets_idem :
    ∀ (ss vs : List VarEntry), applySets (applySets vs ss) ss = applySets vs ss
  | [], _ => rfl
  | s :: rest, vs => by
    have hkeyB : (s.1, s.2.1) ∈
        (setVarList vs s.1 s.2.1 s.2.2).map varKey :=
      mem_keys_setVarList_self vs s.1 s.2.1 s.2.2
    have hkeyA : (s.1, s.2.1) ∈
        (applySets (setVarList vs s.1 s.2.1 s.2.2) rest).map varKey :=
      mem_keys_applySets rest _ hkeyB
    rw [applySets_cons, applySets_cons, setVarList_eq_owr _ _ _ _ hkeyA,
      applySets_owr (s.1, s.2.1) s.2.2 rest _ hkeyA]
    by_cases hin : (s.1, s.2.1) ∈ rest.map varKey
    · rw [if_pos hin, applySets_idem rest _]
    · rw [if_neg hin, applySets_idem rest _]
      exact owr_eq_self _ _ _
        (applySets_entry_eq _ _ rest _ hin
          (setVarList_entry_eq vs s.1 s.2.1 s.2.2))

theorem applyMuts_idem (inv : Inventory) (ms : List Mutation) :
    applyMuts (applyMuts inv ms) ms = applyMuts inv ms := by
  rw [applyMuts_components ms inv, applyMuts_components ms _]
  simp only [foldIns_idem, applySets_idem]

theorem not_mem_replaceFuel_single {p : Char} {rep : List Char}
    (hrep : p ∉ rep) :
    ∀ (fuel : Nat) (s : List Char), s.length ≤ fuel →
      p ∉ replaceFuel [p] rep fuel s := by
  intro fuel
  induction fuel with
  | zero =>
    intro s hs
    have hnil : s = [] := List.eq_nil_of_length_eq_zero (Nat.le_zero.mp hs)
    subst hnil
    simp [replaceFuel]
  | succ n ih =>
    intro s hs
    match s with
    | [] => simp [replaceFuel]
    | c :: rest =>
      simp only [replaceFuel]
      split
      · next hcond =>
        intro hmem
        rcases List.mem_append.mp hmem with hm | hm
        · exact hrep hm
        · exact ih ((c :: rest).drop [p].length)
            (by simpa using Nat.le_of_succ_le_succ hs) hm
      · next hcond =>
        intro hmem
        rcases List.mem_cons.mp hmem with rfl | hm
        · exact hcond ⟨by simp, by simp [List.isPrefixOf]⟩
        · exact ih rest (Nat.le_of_succ_le_succ hs) hm

theorem not_mem_replaceFuel_preserve {x : Char} {pat rep : List Char}
    (hrep : x ∉ rep) :
    ∀ (fuel : Nat) (s : List Char), x ∉ s → x ∉ replaceFuel pat rep fuel s := by
  intro fuel
  induction fuel with
  | zero => intro s hx; simpa [replaceFuel] using hx
  | succ n ih =>
    intro s hx
    match s with
    | [] => simp [replaceFuel]
    | c :: rest =>
      simp only [replaceFuel]
      split
      · intro hmem
        rcases List.mem_append.mp hmem with hm | hm
        · exact hrep hm
        · exact ih _ (fun hd => hx (List.drop_subset _ _ hd)) hm
      · intro hmem
        rcases List.mem_cons.mp hmem with rfl | hm
        · exact hx (List.mem_cons_self ..)
        · exact ih rest (fun hr => hx (List.mem_cons_of_mem _ hr)) hm

/-! ## The claims -/

/-- C1 (amended): a VMI with no status, absent or empty
`status.interfaces`, an unmatched `network_name`, or a selected interface
whose `ipAddress` is absent (`None`) contributes no mutations at all: no
host, no label groups, no variables. (The claim's "absent/empty"
is amended to "absent": an interface reporting an empty-string
`ipAddress` is NOT skipped by the code, see the counterexample.) -/
theorem c1_theorem (sanitize : String → String) (opts : GetVmiOptions)
    (nsg : String) (vmi : Vmi) (h : vmiExcluded opts vmi = true) :
    perVmiMuts sanitize opts nsg vmi = some [] := by
  unfold vmiExcluded at h
  unfold perVmiMuts
  cases hst : vmi.status with
  | none => rfl
  | some st =>
    simp only [hst] at h ⊢
    cases hint : st.interfaces with
    | none => rfl
    | some ifaces =>
      simp only [hint] at h ⊢
      cases ifaces with
      | nil => rfl
      | cons i0 irest =>
        cases hsel : selectInterface opts.network_name (i0 :: irest) with
        | none => simp [hsel]
        | some iface =>
          simp only [hsel] at h ⊢
          cases hip : iface.ipAddress with
          | none => simp [hip]
          | some ip => rw [hip] at h; simp at h

/-- Witness for C1 at a concrete input: a VMI with an empty interface
list yields no mutations. -/
theorem c1_witness :
    perVmiMuts sanitizeDefault defaultOpts "g" c1wVmi = some [] :=
  c1_theorem sanitizeDefault defaultOpts "g" c1wVmi rfl

/-- Counterexample to C1 as stated: a VMI whose selected interface has an
empty-string (not absent) `ipAddress` is NOT excluded — the projector
still adds its host. -/
theorem c1_counterexample :
    selectInterface defaultOpts.network_name [⟨some "eth0", some ""⟩] =
      some ⟨some "eth0", some ""⟩ ∧
    Mutation.addHost "ns1-vm1" ∈
      (perVmiMuts sanitizeDefault defaultOpts "g" c1cexVmi).getD [] :=
  ⟨rfl, List.Mem.head _⟩

/-- C4 (amended): for an included VMI the `ansible_host` variable is the
secondary-DNS name `{networkName}.{name}.{namespace}.vm` when
`kube_secondary_dns` is set and a `network_name` is configured — with
`.{baseDomain}` appended if and only if `base_domain` is PRESENT (it is
appended even when it is the empty string, see the counterexample) — and
the selected interface's `ipAddress` otherwise. -/
theorem c4_theorem (sanitize : String → String) (opts : GetVmiOptions)
    (nsg : String) (vmi : Vmi) (st : VmiStatus) (ifaces : List Interface)
    (iface : Interface) (ip vmiName : String) (ms : List Mutation)
    (h1 : vmi.status = some st) (h2 : st.interfaces = some ifaces)
    (h3 : ifaces ≠ [])
    (h4 : selectInterface opts.network_name ifaces = some iface)
    (h5 : iface.ipAddress = some ip)
    (h6 : formatHost opts.host_format vmi.metadata.«namespace»
            vmi.metadata.name vmi.metadata.uid = some vmiName)
    (h7 : perVmiMuts sanitize opts nsg vmi = some ms) :
    Mutation.setVar vmiName "ansible_host" (.str (
      match opts.kube_secondary_dns, opts.network_name with
      | true, some nn =>
        match opts.base_domain with
        | some bd => nn ++ "." ++ vmi.metadata.name ++ "." ++
            vmi.metadata.«namespace» ++ ".vm" ++ "." ++ bd
        | none => nn ++ "." ++ vmi.metadata.name ++ "." ++
            vmi.metadata.«namespace» ++ ".vm"
      | _, _ => ip)) ∈ ms := by
  rw [perVmiMuts_included sanitize opts nsg vmi st ifaces iface ip vmiName
    h1 h2 h3 h4 h5 h6] at h7
  injection h7 with h7
  subst h7
  have hform : (match opts.kube_secondary_dns, opts.network_name with
      | true, some nn =>
        match opts.base_domain with
        | some bd => nn ++ "." ++ vmi.metadata.name ++ "." ++
            vmi.metadata.«namespace» ++ ".vm" ++ "." ++ bd
        | none => nn ++ "." ++ vmi.metadata.name ++ "." ++
            vmi.metadata.«namespace» ++ ".vm"
      | _, _ => ip) = ansibleHost opts vmi.metadata ip := by
    unfold ansibleHost
    cases opts.kube_secondary_dns <;> cases opts.network_name <;>
      cases opts.base_domain <;> rfl
  rw [hform]
  simp [includedVmiMuts]

/-- Witness for C4 at a concrete input: secondary DNS on, network `br`,
empty-but-present base domain. -/
theorem c4_witness :
    Mutation.setVar "ns1-vm1" "ansible_host" (.str "br.vm1.ns1.vm.") ∈
      (perVmiMuts sanitizeDefault c4cexOpts "g" c4wVmi).getD [] :=
  c4_theorem sanitizeDefault c4cexOpts "g" c4wVmi
    (statusWithInterfaces [⟨some "br", some "10.0.0.1"⟩])
    [⟨some "br", some "10.0.0.1"⟩] ⟨some "br", some "10.0.0.1"⟩
    "10.0.0.1" "ns1-vm1" _ rfl rfl (by simp) rfl rfl rfl rfl

/-- Counterexample to C4 as stated: with `base_domain` present but empty
the code appends the dot anyway (`...vm.`), while the claim's
"appended iff non-empty" rule would leave `...vm`. -/
theorem c4_counterexample :
    ansibleHost c4cexOpts (plainMeta "vm1" "ns1" "u1") "10.0.0.1" =
      "br.vm1.ns1.vm." ∧
    claimAnsibleHost c4cexOpts (plainMeta "vm1" "ns1" "u1") "10.0.0.1" =
      "br.vm1.ns1.vm" ∧
    ansibleHost c4cexOpts (plainMeta "vm1" "ns1" "u1") "10.0.0.1" ≠
      claimAnsibleHost c4cexOpts (plainMeta "vm1" "ns1" "u1") "10.0.0.1" := by
  refine ⟨rfl, rfl, ?_⟩
  decide

/-- C7: the claim (and the repository's own unit test fixture) expect the
rendered manifest to carry `spec.running` from a `running` parameter and
to always contain `terminationGracePeriodSeconds`; the template hardcodes
`running: true` and never renders `terminationGracePeriodSeconds`
(evaluated here at the unit test's own input). -/
theorem c7_theorem :
    (render_template c7TestParams).running = true ∧
    (render_template c7TestParams).terminationGracePeriodSeconds = none ∧
    (∀ p : VmParams, (render_template p).running = true ∧
      (render_template p).terminationGracePeriodSeconds = none) :=
  ⟨rfl, rfl, fun _ => ⟨rfl, rfl⟩⟩

/-- C9 (amended): after `__post_init__`, `api_version` and `host_format`
are never `None`: the defaults `kubevirt.io/v1` and `{namespace}-{name}`
are substituted exactly when the configured value is unset: the fields
are non-empty unless a value was explicitly configured as the empty
string (see the counterexample). -/
theorem c9_theorem (av ls nn : Option String) (ksd : Bool)
    (bd hf : Option String) :
    (av = none →
      (mkGetVmiOptions av ls nn ksd bd hf).api_version = "kubevirt.io/v1") ∧
    (∀ s, av = some s →
      (mkGetVmiOptions av ls nn ksd bd hf).api_version = s) ∧
    (hf = none →
      (mkGetVmiOptions av ls nn ksd bd hf).host_format = "{namespace}-{name}") ∧
    (∀ s, hf = some s →
      (mkGetVmiOptions av ls nn ksd bd hf).host_format = s) ∧
    (av ≠ some "" → (mkGetVmiOptions av ls nn ksd bd hf).api_version ≠ "") ∧
    (hf ≠ some "" → (mkGetVmiOptions av ls nn ksd bd hf).host_format ≠ "") := by
  refine ⟨?_, ?_, ?_, ?_, ?_, ?_⟩
  · intro h; subst h; rfl
  · intro s h; subst h; rfl
  · intro h; subst h; rfl
  · intro s h; subst h; rfl
  · intro h he
    cases av with
    | none =>
      rw [show (mkGetVmiOptions none ls nn ksd bd hf).api_version =
        "kubevirt.io/v1" from rfl] at he
      exact absurd he (by decide)
    | some s => exact h (congrArg some (he : s = ""))
  · intro h he
    cases hf with
    | none =>
      rw [show (mkGetVmiOptions av ls nn ksd bd none).host_format =
        "{namespace}-{name}" from rfl] at he
      exact absurd he (by decide)
    | some s => exact h (congrArg some (he : s = ""))

/-- Witness for C9 at a concrete input: the all-defaults connection. -/
theorem c9_witness :
    (mkGetVmiOptions none none none false none none).api_version =
      "kubevirt.io/v1" ∧
    (mkGetVmiOptions none none none false none none).host_format =
      "{namespace}-{name}" :=
  ⟨(c9_theorem none none none false none none).1 rfl,
   (c9_theorem none none none false none none).2.2.1 rfl⟩

/-- Counterexample to C9 as stated: explicitly configuring the empty
string defeats the defaulting (`__post_init__` only checks for `None`),
so both fields can be empty at projection time. -/
theorem c9_counterexample :
    (mkGetVmiOptions (some "") none none false none (some "")).api_version
      = "" ∧
    (mkGetVmiOptions (some "") none none false none (some "")).host_format
      = "" :=
  ⟨rfl, rfl⟩

/-- C10 (amended): the connection group name strips EVERY occurrence of
`https://` and then of `http://` (not only a leading one) and replaces
every `.` by `-` and every `:` by `_`: no dot or colon survives in the
result, and the claim's own example holds. -/
theorem c10_theorem :
    get_default_host_name "https://192.168.64.4:8443" = "192-168-64-4_8443" ∧
    get_default_host_name "x.https://y:1" = "x-y_1" ∧
    (∀ host : String, '.' ∉ (get_default_host_name host).data ∧
      ':' ∉ (get_default_host_name host).data) := by
  refine ⟨rfl, rfl, fun host => ⟨?_, ?_⟩⟩
  · exact not_mem_replaceFuel_preserve (by decide) _ _
      (not_mem_replaceFuel_single (by decide) _ _ (Nat.le_refl _))
  · exact not_mem_replaceFuel_single (by decide) _ _ (Nat.le_refl _)

/-- Counterexample to C10 as stated: on a host string containing the
scheme in the middle, the code removes it while the claim's
"leading prefix" rule keeps it. -/
theorem c10_counterexample :
    get_default_host_name "x.https://y:1" ≠
      leadingSchemeHostName "x.https://y:1" := by
  decide

/-- C2: with `network_name` unset the first interface is selected; with
`network_name` set, the first interface whose `name` equals it (exact
match, first match wins) is selected and a missing match yields "not
found"; the chosen IP is the selected interface's `ipAddress` (checked on
the spec's two examples). -/
theorem c2_theorem :
    (∀ ifaces : List Interface, selectInterface none ifaces = ifaces.head?) ∧
    (∀ (n : String) (ifaces : List Interface) (i : Interface),
      selectInterface (some n) ifaces = some i →
      i.name = some n ∧ ∃ pre post, ifaces = pre ++ i :: post ∧
        ∀ j ∈ pre, j.name ≠ some n) ∧
    (∀ (n : String) (ifaces : List Interface),
      selectInterface (some n) ifaces = none ↔
        ∀ i ∈ ifaces, i.name ≠ some n) ∧
    ((selectInterface (some "eth1")
        [⟨some "eth0", some "10.0.0.1"⟩, ⟨some "eth1", some "10.0.0.2"⟩]).bind
        Interface.ipAddress = some "10.0.0.2") ∧
    ((selectInterface none [⟨some "eth0", some "10.0.0.1"⟩]).bind
        Interface.ipAddress = some "10.0.0.1") := by
  refine ⟨fun _ => rfl, ?_, ?_, rfl, rfl⟩
  · intro n ifaces i h
    obtain ⟨hp, pre, post, rfl, hpre⟩ := find?_first _ _ _ h
    refine ⟨by simpa using hp, pre, post, rfl, ?_⟩
    intro j hj
    simpa using hpre j hj
  · intro n ifaces
    unfold selectInterface
    rw [List.find?_eq_none]
    constructor
    · intro h i hi
      simpa using h i hi
    · intro h i hi
      simpa using h i hi

/-- Witness for C2 at the spec's example: `eth1` is matched by name and
is the first (and only) match, after the unmatched `eth0`. -/
theorem c2_witness :
    (⟨some "eth1", some "10.0.0.2"⟩ : Interface).name = some "eth1" ∧
    ∃ pre post,
      [(⟨some "eth0", some "10.0.0.1"⟩ : Interface),
       ⟨some "eth1", some "10.0.0.2"⟩] =
        pre ++ (⟨some "eth1", some "10.0.0.2"⟩ : Interface) :: post ∧
      ∀ j ∈ pre, j.name ≠ some "eth1" :=
  c2_theorem.2.1 "eth1" _ _ rfl

mutual
/-- The decoder never leaves a raw wrapper (`field`) in its result, on
any wrapper-free-dict input (i.e. raw API data). -/
theorem noField_decode :
    ∀ v : ApiValue, noDict v = true →
      noField (resource_field_to_dict v) = true
  | .null, _ => rfl
  | .str _, _ => rfl
  | .int _, _ => rfl
  | .bool _, _ => rfl
  | .field ms, h => by
    simp only [noDict] at h
    simpa only [resource_field_to_dict, noField] using
      noFieldPairs_decode ms h
  | .list xs, h => by
    simp only [noDict] at h
    simpa only [resource_field_to_dict, noField] using
      noFieldItems_decode xs h
  | .dictV _, h => by simp [noDict] at h

/-- `noField_decode` over record members. -/
theorem noFieldPairs_decode :
    ∀ ms : List (String × ApiValue), noDictPairs ms = true →
      noFieldPairs (decodePairs ms) = true
  | [], _ => rfl
  | (k, v) :: rest, h => by
    simp only [noDictPairs, Bool.and_eq_true] at h
    simp only [decodePairs, noFieldPairs, Bool.and_eq_true]
    exact ⟨noField_decode v h.1, noFieldPairs_decode rest h.2⟩

/-- `noField_decode` over sequence elements. -/
theorem noFieldItems_decode :
    ∀ xs : List ApiValue, noDictItems xs = true →
      noFieldItems (decodeItems xs) = true
  | [], _ => rfl
  | v :: rest, h => by
    simp only [noDictItems, Bool.and_eq_true] at h
    simp only [decodeItems, noFieldItems, Bool.and_eq_true]
    exact ⟨noField_decode v h.1, noFieldItems_decode rest h.2⟩
end

/-- C6: the structured-field decoder maps a wrapper record to a mapping
of its recursively decoded members, a sequence to the sequence of
recursively decoded elements, and passes scalars through unchanged; on
raw API input the result never contains the wrapper type; and a sequence
of condition records with scalar members decodes to the sequence of
mappings with identical keys and values. -/
theorem c6_theorem :
    (∀ ms, resource_field_to_dict (.field ms) =
      .dictV (ms.map (fun p => (p.1, resource_field_to_dict p.2)))) ∧
    (∀ xs, resource_field_to_dict (.list xs) =
      .list (xs.map resource_field_to_dict)) ∧
    (∀ v, isScalar v = true → resource_field_to_dict v = v) ∧
    (∀ v, noDict v = true → noField (resource_field_to_dict v) = true) ∧
    (∀ conds : List (List (String × ApiValue)),
      (∀ ms ∈ conds, ∀ p ∈ ms, isScalar p.2 = true) →
      resource_field_to_dict (.list (conds.map ApiValue.field)) =
        .list (conds.map ApiValue.dictV)) := by
  refine ⟨?_, ?_, fun v h => decode_scalar h, fun v h => noField_decode v h, ?_⟩
  · intro ms
    simp [resource_field_to_dict, decodePairs_eq_map]
  · intro xs
    simp [resource_field_to_dict, decodeItems_eq_map]
  · intro conds h
    simp only [resource_field_to_dict, decodeItems_eq_map, List.map_map]
    refine congrArg ApiValue.list (List.map_congr_left ?_)
    intro ms hms
    simp only [Function.comp_apply, resource_field_to_dict,
      decodePairs_eq_map]
    refine congrArg ApiValue.dictV ?_
    calc ms.map (fun p => (p.1, resource_field_to_dict p.2))
        = ms.map id := List.map_congr_left (fun p hp => by
            rw [decode_scalar (h ms hms p hp)]; exact rfl)
      _ = ms := List.map_id ms

/-- Witness for C6 at a concrete condition record. -/
theorem c6_witness :
    resource_field_to_dict
        (.list [ApiValue.field [("type", .str "Ready"),
                                ("status", .str "True")]]) =
      .list [ApiValue.dictV [("type", .str "Ready"),
                             ("status", .str "True")]] :=
  c6_theorem.2.2.2.2 [[("type", .str "Ready"), ("status", .str "True")]]
    (by decide)

/-- C3: for an included VMI with labels, every label pair yields a
sanitized `label_{key}_{value}` group containing the host; the computed
group list is deduplicated by sanitized name; and the resulting set of
group names is invariant under reordering of the labels mapping. -/
theorem c3_theorem (sanitize : String → String) (opts : GetVmiOptions)
    (nsg : String) (vmi : Vmi) (st : VmiStatus) (ifaces : List Interface)
    (iface : Interface) (ip vmiName : String) (ms : List Mutation)
    (l : List (String × String))
    (h1 : vmi.status = some st) (h2 : st.interfaces = some ifaces)
    (h3 : ifaces ≠ [])
    (h4 : selectInterface opts.network_name ifaces = some iface)
    (h5 : iface.ipAddress = some ip)
    (h6 : formatHost opts.host_format vmi.metadata.«namespace»
            vmi.metadata.name vmi.metadata.uid = some vmiName)
    (h7 : perVmiMuts sanitize opts nsg vmi = some ms)
    (hl : vmi.metadata.labels = some l) :
    (∀ p ∈ l, Mutation.addGroup (sanitize (labelGroupStr p)) ∈ ms) ∧
    (∀ p ∈ l, Mutation.addChild (sanitize (labelGroupStr p)) vmiName ∈ ms) ∧
    (labelGroupNames sanitize l).Nodup ∧
    (∀ l', l.Perm l' → ∀ g,
      g ∈ labelGroupNames sanitize l ↔ g ∈ labelGroupNames sanitize l') := by
  rw [perVmiMuts_included sanitize opts nsg vmi st ifaces iface ip vmiName
    h1 h2 h3 h4 h5 h6] at h7
  injection h7 with h7
  subst h7
  refine ⟨?_, ?_, nodup_labelGroupNames sanitize l, ?_⟩
  · intro p hp
    simp only [includedVmiMuts, hl, Option.getD_some, List.mem_append]
    exact Or.inl (Or.inl (Or.inl (List.mem_map_of_mem _ hp)))
  · intro p hp
    have hg : sanitize (labelGroupStr p) ∈ labelGroupNames sanitize l :=
      (mem_labelGroupNames sanitize l _).mpr ⟨p, hp, rfl⟩
    simp only [includedVmiMuts, hl, Option.getD_some, List.mem_append]
    exact Or.inl (Or.inr (List.mem_map_of_mem _ hg))
  · intro l' hperm g
    rw [mem_labelGroupNames, mem_labelGroupNames]
    constructor
    · rintro ⟨p, hp, rfl⟩
      exact ⟨p, hperm.subset hp, rfl⟩
    · rintro ⟨p, hp, rfl⟩
      exact ⟨p, hperm.symm.subset hp, rfl⟩

/-- Witness for C3 at a concrete input with labels
`{app: x, tier: y}`. -/
theorem c3_witness :
    Mutation.addGroup (sanitizeDefault (labelGroupStr ("app", "x"))) ∈
      (perVmiMuts sanitizeDefault defaultOpts "g" c3wVmi).getD [] :=
  (c3_theorem sanitizeDefault defaultOpts "g" c3wVmi
    (c3wVmi.status.getD (statusWithInterfaces []))
    [⟨some "eth0", some "10.0.0.1"⟩] ⟨some "eth0", some "10.0.0.1"⟩
    "10.0.0.1" "ns1-vm1" _ [("app", "x"), ("tier", "y")]
    rfl rfl (by simp) rfl rfl rfl rfl rfl).1 ("app", "x") (by simp)

set_option maxRecDepth 4000 in
/-- C5: the host identifier is `host_format` with `{namespace}`,
`{name}`, `{uid}` substituted (shown in general for the default format),
it is used verbatim as the host key — for EVERY sanitization function,
the added host is the raw formatted string — and two VMIs formatting to
the same identifier silently overwrite: after projecting two colliding
VMIs the surviving `uid` variable is the second VMI's. -/
theorem c5_theorem :
    (∀ (sanitize : String → String) (opts : GetVmiOptions) (nsg : String)
        (vmi : Vmi) (st : VmiStatus) (ifaces : List Interface)
        (iface : Interface) (ip vmiName : String) (ms : List Mutation),
      vmi.status = some st → st.interfaces = some ifaces → ifaces ≠ [] →
      selectInterface opts.network_name ifaces = some iface →
      iface.ipAddress = some ip →
      formatHost opts.host_format vmi.metadata.«namespace»
        vmi.metadata.name vmi.metadata.uid = some vmiName →
      perVmiMuts sanitize opts nsg vmi = some ms →
      Mutation.addHost vmiName ∈ ms) ∧
    (∀ ns nm uid : String,
      formatHost "{namespace}-{name}" ns nm uid = some (ns ++ "-" ++ nm)) ∧
    ((project sanitizeDefault "conn" "ns1" [c5v1, c5v2] defaultOpts
        emptyInventory).map
      (fun inv => lookupVar inv "ns1-vm1" "uid") =
      some (some (.str "u2"))) := by
  refine ⟨?_, ?_, rfl⟩
  · intro sanitize opts nsg vmi st ifaces iface ip vmiName ms
      h1 h2 h3 h4 h5 h6 h7
    rw [perVmiMuts_included sanitize opts nsg vmi st ifaces iface ip vmiName
      h1 h2 h3 h4 h5 h6] at h7
    injection h7 with h7
    subst h7
    simp [includedVmiMuts]
  · intro ns nm uid
    cases ns with | mk nsl =>
    cases nm with | mk nml =>
    have h : formatHost "{namespace}-{name}" ⟨nsl⟩ ⟨nml⟩ uid =
        some (String.mk (nsl ++ '-' :: (nml ++ []))) := rfl
    rw [h]
    exact congrArg (fun l => some (String.mk l)) (by simp)

/-- Witness for C5: the raw formatted identifier `ns1-vm1` is added as a
host. -/
theorem c5_witness :
    Mutation.addHost "ns1-vm1" ∈
      (perVmiMuts sanitizeDefault defaultOpts "g" c5v1).getD [] :=
  c5_theorem.1 sanitizeDefault defaultOpts "g" c5v1
    (statusWithInterfaces [⟨some "eth0", some "10.0.0.1"⟩])
    [⟨some "eth0", some "10.0.0.1"⟩] ⟨some "eth0", some "10.0.0.1"⟩
    "10.0.0.1" "ns1-vm1" _ rfl rfl (by simp) rfl rfl rfl rfl

/-- C8: projecting the same VMI list twice with the same connection,
namespace and options leaves the graph unchanged: a second projection of
an already-projected inventory is the identity (the model's sink
operations are idempotent insertions/overwrites, as the spec's
collaborator interface requires). -/
theorem c8_theorem (sanitize : String → String) (connectionName ns : String)
    (vmiList : List Vmi) (opts : GetVmiOptions) (inv inv' : Inventory)
    (h : project sanitize connectionName ns vmiList opts inv = some inv') :
    project sanitize connectionName ns vmiList opts inv' = some inv' := by
  unfold project at h ⊢
  cases hm : projectMuts sanitize connectionName ns vmiList opts with
  | none => rw [hm] at h; simp at h
  | some ms =>
    rw [hm] at h
    simp only [Option.map_some'] at h ⊢
    injection h with h
    subst h
    exact congrArg some (applyMuts_idem inv ms)

/-- Witness for C8 at a concrete projection of one VMI. -/
theorem c8_witness :
    project sanitizeDefault "conn" "ns1" [c5v1] defaultOpts
        ((project sanitizeDefault "conn" "ns1" [c5v1] defaultOpts
          emptyInventory).getD emptyInventory) =
      some ((project sanitizeDefault "conn" "ns1" [c5v1] defaultOpts
          emptyInventory).getD emptyInventory) :=
  c8_theorem sanitizeDefault "conn" "ns1" [c5v1] defaultOpts
    emptyInventory _ rfl

end Kubevirt
